import Mathlib

/-!
Shallow embedding of the F1 data-analysis helpers in src/utils.py
(functions fuel_correction, get_acc_time, get_acc_df,
get_driver_stint_models, compare_car_speeds and
compute_track_dominance_multi) together with the theorems that settle the
frozen claims about them.

Modelling conventions:
* Machine floats are modelled by ℚ.  All lap times, speeds, distances and
  coordinates are exact rationals; the numeric claims under scrutiny are
  about exact interpolation / arithmetic identities, never about float
  error, so this idealisation is faithful.
* Both Python's built-in round and numpy/pandas elementwise rounding use
  round-half-to-even; roundHalfEven below implements that tie rule.
* pandas/numpy division by zero on floats yields non-finite values rather
  than raising; in ℚ we use Lean's x / 0 = 0 convention.  No claim
  exercises such degenerate inputs.
* Fallible code paths (Python IndexError / KeyError, the bare except in
  get_acc_df) are modelled with Option: none marks the raise, and the
  NaN placeholders written by get_acc_df are modelled as none as well.
* Telemetry dataframes produced by the external FastF1 library carry a
  default RangeIndex, so a row label equals its position; positional list
  indexing therefore models .index[0] / .iloc faithfully, including
  Python's negative-index wrap-around (pyIloc below).
-/

/-- Round-half-to-even to an integer, the tie rule used by Python's
built-in round, numpy and pandas. -/
def roundHalfEven (q : ℚ) : ℤ :=
  if Int.fract q < 1/2 then ⌊q⌋
  else if 1/2 < Int.fract q then ⌊q⌋ + 1
  else if ⌊q⌋ % 2 = 0 then ⌊q⌋ else ⌊q⌋ + 1

/-- round(x, 2): round to 2 decimal places (half to even). -/
def round2 (q : ℚ) : ℚ := (roundHalfEven (q * 100) : ℚ) / 100

/-- round(x): round to the nearest integer (half to even), as applied
elementwise by round(pd.DataFrame(...)) in compare_car_speeds. -/
def round0 (q : ℚ) : ℚ := (roundHalfEven q : ℚ)

/-- Python iloc-style positional access on a list: non-negative indices
count from the front, negative indices wrap from the back, anything out of
range is an IndexError (none). -/
def pyIloc {α : Type} (l : List α) (i : ℤ) : Option α :=
  if 0 ≤ i then l[i.toNat]?
  else if (-i).toNat ≤ l.length then l[l.length - (-i).toNat]? else none

/-- One row of the lap table used by fuel_correction and
get_driver_stint_models: the columns selected at utils.py:131-134.
LapTime is already in seconds (ℚ); PitInTime/PitOutTime only matter
through being null or not, so they are Option-valued. -/
structure Lap where
  LapNumber : ℚ
  LapTime : ℚ
  Stint : ℕ
  Compound : String
  TyreLife : ℚ
  TrackStatus : String
  PitInTime : Option ℚ
  PitOutTime : Option ℚ
deriving Repr, DecidableEq

/-- The part of a loaded FastF1 session that fuel_correction reads:
session.total_laps. -/
structure RaceSession where
  total_laps : ℕ
deriving Repr, DecidableEq

/-- fuel_correction (utils.py:7-35): linear fuel correction of the lap
times of one stint, rounded to 2 decimals.  The pandas Series arithmetic
is elementwise, hence List.map. -/
def fuel_correction (session : RaceSession) (df : List Lap)
    (iFuelLoad : ℚ := 108) (FC_factor : ℚ := 35/1000) : List ℚ :=
  let laps : ℚ := session.total_laps
  let fuel_burn := iFuelLoad / laps
  let fuel_corr := FC_factor
  df.map (fun l => round2 (l.LapTime - (laps - l.LapNumber) * fuel_burn * fuel_corr))

/-- One row of the telemetry frame used by get_acc_time / get_acc_df:
columns Time (already converted to seconds) and Speed (km/h). -/
structure AccRow where
  Time : ℚ
  Speed : ℚ
deriving Repr, DecidableEq

/-- Position of the first telemetry row with Speed strictly above target:
the value of df[df.Speed > target_speed].index[0] on a RangeIndex frame,
none when no row qualifies (pandas raises IndexError there). -/
def firstExceed (target : ℚ) : List AccRow → Option ℕ
  | [] => none
  | r :: rest =>
      if target < r.Speed then some 0
      else (firstExceed target rest).map (fun n => n + 1)

/-- get_acc_time (utils.py:38-68): linear interpolation of the time at
which the car reaches target_speed, between the first row exceeding the
target and its predecessor row (df.iloc[idx - 1]; for idx = 0 Python's
negative indexing selects the last row), rounded to 2 decimals. -/
def get_acc_time (df : List AccRow) (target_speed : ℚ) : Option ℚ :=
  match firstExceed target_speed df with
  | none => none
  | some idx =>
    match pyIloc df ((idx : ℤ) - 1), df[idx]? with
    | some p1, some p2 =>
        some (round2 (p1.Time + (p2.Time - p1.Time) * (target_speed - p1.Speed)
          / (p2.Speed - p1.Speed)))
    | _, _ => none

/-- The part of a session that get_acc_df reads: the driver list, the
abbreviation lookup (session.get_driver(d).Abbreviation) and each
driver's lap-1 car telemetry with Time already in seconds. -/
structure AccSession where
  drivers : List String
  abbreviation : String → String
  lap1CarData : String → List AccRow

/-- Body of the try/except in get_acc_df (utils.py:100-103): on success
the pair (time to 100, round(time to 200 - time to 100, 2)); if either
lookup raises (target speed never exceeded) the bare except stores the
NaN/NaN placeholder, modelled as (none, none). -/
def driverAccEntry (df : List AccRow) : Option ℚ × Option ℚ :=
  match get_acc_time df 100, get_acc_time df 200 with
  | some a, some b => (some a, some (round2 (b - a)))
  | _, _ => (none, none)

/-- get_acc_df (utils.py:71-105): one output row per driver, keyed by
abbreviation, with the 0-100 and 100-200 columns. -/
def get_acc_df (session : AccSession) : List (String × (Option ℚ × Option ℚ)) :=
  session.drivers.map (fun d => (session.abbreviation d, driverAccEntry (session.lap1CarData d)))

/-- The flag filter at utils.py:137: keep laps whose TrackStatus string
does not contain the character code 4 (the FastF1 safety-car code). -/
def dropFlaggedLaps (laps : List Lap) : List Lap :=
  laps.filter (fun l => !(l.TrackStatus.data.contains (Char.ofNat 52)))

/-- The pit filter predicate at utils.py:146: both PitInTime and
PitOutTime are null. -/
def noPitLap (l : Lap) : Bool :=
  l.PitInTime.isNone && l.PitOutTime.isNone

/-- Sorted insertion, helper for the sorted group keys of groupby. -/
def insertSorted (n : ℕ) : List ℕ → List ℕ
  | [] => [n]
  | m :: rest => if n ≤ m then n :: m :: rest else m :: insertSorted n rest

/-- Insertion sort on ℕ, helper for groupByStint. -/
def sortKeys : List ℕ → List ℕ
  | [] => []
  | n :: rest => insertSorted n (sortKeys rest)

/-- Remove adjacent duplicates of a sorted list, helper for groupByStint. -/
def dedupAdj : List ℕ → List ℕ
  | [] => []
  | [n] => [n]
  | n :: m :: rest => if n = m then dedupAdj (m :: rest) else n :: dedupAdj (m :: rest)

/-- The distinct stint numbers in ascending order: the group keys of
pandas laps.groupby('Stint'). -/
def stintKeys (laps : List Lap) : List ℕ :=
  dedupAdj (sortKeys (laps.map (fun l => l.Stint)))

/-- laps.groupby('Stint') (utils.py:141): groups listed in ascending key
order, each group keeping the original row order. -/
def groupByStint (laps : List Lap) : List (ℕ × List Lap) :=
  (stintKeys laps).map (fun k => (k, laps.filter (fun l => l.Stint == k)))

/-- The per-stint body of get_driver_stint_models (utils.py:142-162):
skip stints of fewer than 10 laps, then drop pit in/out laps, skip the
stint if nothing remains, fuel-correct the surviving lap times and return
the stint's compound together with the (TyreLife, corrected time) sample
pairs handed to sm.OLS.  The numerical least-squares solve itself is
external (statsmodels); what the repository controls — and what the
claims are about — is the fit input built here. -/
def processStint (session : RaceSession) (iFuelLoad FC_factor : ℚ)
    (stint_df : List Lap) : Option (String × List (ℚ × ℚ)) :=
  if stint_df.length < 10 then none
  else
    match stint_df.filter noPitLap with
    | [] => none
    | f0 :: frest =>
        let filtered := f0 :: frest
        let corrected := fuel_correction session filtered iFuelLoad FC_factor
        some (f0.Compound, (filtered.map (fun l => l.TyreLife)).zip corrected)

/-- The part of a session that get_driver_stint_models reads: the total
lap count (for fuel_correction) and, per driver, the lap rows that
survive the external pick_drivers/pick_quicklaps selection at
utils.py:131-134. -/
structure StintSession extends RaceSession where
  laps : String → List Lap

/-- get_driver_stint_models (utils.py:108-169): per driver, drop laps
whose TrackStatus contains the code 4, group the rest by stint, process
each stint, and keep the driver only if at least one stint produced a
model. -/
def get_driver_stint_models (session : StintSession) (drivers : List String)
    (iFuelLoad : ℚ := 108) (FC_factor : ℚ := 35/1000) :
    List (String × List (String × List (ℚ × ℚ))) :=
  (drivers.map (fun drv =>
    let laps := dropFlaggedLaps (session.laps drv)
    let stint_models := (groupByStint laps).filterMap
      (fun g => processStint session.toRaceSession iFuelLoad FC_factor g.2)
    (drv, stint_models))).filter (fun r => !r.2.isEmpty)

/-- One row of the fastest-lap telemetry used by compare_car_speeds and
compute_track_dominance_multi: distance along track, position and speed. -/
structure TelRow where
  Distance : ℚ
  X : ℚ
  Y : ℚ
  Speed : ℚ
deriving Repr, DecidableEq

/-- The part of a session that compare_car_speeds reads: the corner
distances of session.get_circuit_info().corners (row c-1 holds corner
number c) and each driver's fastest-lap telemetry. -/
structure SpeedSession where
  corners : List ℚ
  telemetry : String → List TelRow

/-- The inner corner loop of compare_car_speeds (utils.py:213-217): for
each corner number c of a category, read corner_df.iloc[c-1].Distance
(IndexError = none propagates) and collect the speeds of all telemetry
rows within the open distance window (d - delta, d + delta), in corner
order. -/
def categorySamples (tel : List TelRow) (corners : List ℚ) (delta : ℚ) :
    List ℕ → Option (List ℚ)
  | [] => some []
  | c :: rest =>
    match pyIloc corners ((c : ℤ) - 1) with
    | none => none
    | some d =>
      match categorySamples tel corners delta rest with
      | none => none
      | some others =>
          some (((tel.filter (fun r =>
            decide (d - delta < r.Distance) && decide (r.Distance < d + delta))).map
              (fun r => r.Speed)) ++ others)

/-- The category average at utils.py:219-222: the mean of the aggregate
sample list, or an explicit null (None) when no sample was collected. -/
def categoryValue (samples : List ℚ) : Option ℚ :=
  if samples.isEmpty then none else some (samples.sum / samples.length)

/-- The category loop of compare_car_speeds (utils.py:212-222): one
labelled entry per category, keyed f-string style by
category.capitalize() ++ "SpeedAvg". -/
def categoryMetrics (tel : List TelRow) (corners : List ℚ) (delta : ℚ) :
    List (String × List ℕ) → Option (List (String × Option ℚ))
  | [] => some []
  | (name, cs) :: rest =>
    match categorySamples tel corners delta cs, categoryMetrics tel corners delta rest with
    | some samples, some others =>
        some ((name.capitalize ++ "SpeedAvg", categoryValue samples) :: others)
    | _, _ => none

/-- One cell of the float64 table compare_car_speeds returns: a number,
or the float NaN missing marker. -/
inductive PdCell where
  | num : ℚ → PdCell
  | nan : PdCell
deriving Repr, DecidableEq

/-- The dtype coercion performed when pd.DataFrame(results) is built at
utils.py:226: every driver column holds the float TopSpeed next to the
category values, so pandas infers a float64 column and converts a stored
Python None (and a missing value) to NaN. -/
def toCell (v : Option ℚ) : PdCell :=
  match v with
  | some q => PdCell.num q
  | none => PdCell.nan

/-- round(...) applied to one float64 cell: rounds a number to a whole
number (half to even) and keeps NaN as NaN. -/
def roundCell (c : PdCell) : PdCell :=
  match c with
  | PdCell.num q => PdCell.num (round0 q)
  | PdCell.nan => PdCell.nan

/-- The driver loop of compare_car_speeds: the metrics dict holds the
telemetry maximum as TopSpeed (Series.max() of an empty Series is NaN,
hence max? coerced by toCell) and a Python None for an empty category
(categoryMetrics above); the returned round(pd.DataFrame(results).T)
then coerces every cell of the float64 driver columns with toCell —
turning the stored None into NaN — and rounds it to a whole number. -/
def compareRows (session : SpeedSession) (corner_inputs : List (String × List ℕ))
    (delta : ℚ) : List String → Option (List (String × PdCell × List (String × PdCell)))
  | [] => some []
  | drv :: rest =>
    let tel := session.telemetry drv
    match categoryMetrics tel session.corners delta corner_inputs,
        compareRows session corner_inputs delta rest with
    | some cats, some others =>
        some ((drv, roundCell (toCell ((tel.map (fun r => r.Speed)).max?)),
          cats.map (fun p => (p.1, roundCell (toCell p.2)))) :: others)
    | _, _ => none

/-- compare_car_speeds (utils.py:172-226): one row per driver with the
rounded TopSpeed cell and the per-category cells of the returned float64
table; the outer none models the IndexError escaping when a corner
number has no metadata row. -/
def compare_car_speeds (session : SpeedSession) (drivers : List String)
    (corner_inputs : List (String × List ℕ)) (delta : ℚ := 10) :
    Option (List (String × PdCell × List (String × PdCell))) :=
  compareRows session corner_inputs delta drivers

/-- np.linspace(start, stop, num): num evenly spaced points including the
endpoints. -/
def linspace (start stop : ℚ) (num : ℕ) : List ℚ :=
  if num = 0 then []
  else if num = 1 then [start]
  else (List.range num).map (fun (i : ℕ) => start + (stop - start) * (i : ℚ) / ((num : ℚ) - 1))

/-- np.interp(x, xp, fp) for one query point, xp in increasing order as
np.interp requires: clamp to fp.head on the left and fp.last on the
right, linear interpolation between the bracketing samples inside. -/
def np_interp (x : ℚ) : List (ℚ × ℚ) → ℚ
  | [] => 0
  | [p] => p.2
  | p :: q :: rest =>
    if x ≤ p.1 then p.2
    else if x ≤ q.1 then p.2 + (q.2 - p.2) * (x - p.1) / (q.1 - p.1)
    else np_interp x (q :: rest)

/-- pd.Series(v).rolling(window=w, center=True, min_periods=1).mean():
the pandas fixed window for output i spans positions
[i + (w-1)/2 + 1 - w, i + (w-1)/2] clipped to the array, and min_periods=1
takes the mean of whatever falls inside. -/
def rollingMeanCenter (w : ℕ) (xs : List ℚ) : List ℚ :=
  let n := xs.length
  let off := (w - 1) / 2
  (List.range n).map (fun i =>
    let s := i + off + 1 - w
    let e := min n (i + off + 1)
    let win := (xs.drop s).take (e - s)
    win.sum / win.length)

/-- np.mean(rows, axis=0) on a rectangular row-major array: the column
of index i averaged over all rows. -/
def meanAxis0 (rows : List (List ℚ)) : List ℚ :=
  match rows with
  | [] => []
  | r0 :: _ =>
      (List.range r0.length).map (fun i =>
        ((rows.map (fun r => r.getD i 0)).sum) / rows.length)

/-- Tail of np.argmax: first position of the running maximum. -/
def argmaxAux : List ℚ → ℕ → ℕ → ℚ → ℕ
  | [], _, best, _ => best
  | a :: rest, i, best, bestv =>
      if bestv < a then argmaxAux rest (i + 1) i a
      else argmaxAux rest (i + 1) best bestv

/-- np.argmax on a vector: the first index attaining the maximum (ties
resolve to the earliest index). -/
def argmaxIdx : List ℚ → ℕ
  | [] => 0
  | a :: rest => argmaxAux rest 1 0 a

/-- The trigonometric routines the rotation step delegates to numpy
(np.deg2rad, np.cos, np.sin).  They are external float kernels; the
rotation claims only use the exact IEEE identities deg2rad 0 = 0,
cos 0 = 1 and sin 0 = 0, which become hypotheses of the theorems. -/
structure Trig where
  deg2rad : ℚ → ℚ
  cos : ℚ → ℚ
  sin : ℚ → ℚ

/-- The part of a session that compute_track_dominance_multi reads: the
circuit rotation metadata, each driver's fastest-lap telemetry and the
fallback driver-colour lookup of fastf1.plotting. -/
structure DomSession where
  rotation : ℚ
  telemetry : String → List TelRow
  driverColor : String → String

/-- compute_track_dominance_multi (utils.py:229-308): interpolate every
driver's X, Y and speed onto the common metre grid, smooth the speeds,
take the per-point argmax driver for the colour array, average the
coordinates across drivers, rotate them, and emit (points, segments,
colors).  points keeps one entry per grid point (the numpy
reshape(-1, 1, 2) only changes the array layout); segments pairs each
point with its successor. -/
def compute_track_dominance_multi (trig : Trig) (session : DomSession)
    (drivers : List String) (circuit_length : ℕ) (window_size : ℕ := 200)
    (rotation : Option ℚ := none) (colors_map : Option (String → String) := none) :
    List (ℚ × ℚ) × List ((ℚ × ℚ) × (ℚ × ℚ)) × List String :=
  let distance_grid := linspace 0 circuit_length (circuit_length + 1)
  let cmap := colors_map.getD (fun drv => session.driverColor drv)
  let xs := drivers.map (fun drv => distance_grid.map (fun g =>
    np_interp g ((session.telemetry drv).map (fun r => (r.Distance, r.X)))))
  let ys := drivers.map (fun drv => distance_grid.map (fun g =>
    np_interp g ((session.telemetry drv).map (fun r => (r.Distance, r.Y)))))
  let speeds := drivers.map (fun drv => rollingMeanCenter window_size
    (distance_grid.map (fun g =>
      np_interp g ((session.telemetry drv).map (fun r => (r.Distance, r.Speed))))))
  let n := distance_grid.length
  let fastest_idx := (List.range n).map (fun i => argmaxIdx (speeds.map (fun row => row.getD i 0)))
  let fastest_drivers := fastest_idx.map (fun j => drivers.getD j "")
  let colors := fastest_drivers.map cmap
  let x := meanAxis0 xs
  let y := meanAxis0 ys
  let rot := rotation.getD session.rotation
  let theta := trig.deg2rad rot
  let x_rot := List.zipWith (fun a b => a * trig.cos theta - b * trig.sin theta) x y
  let y_rot := List.zipWith (fun a b => a * trig.sin theta + b * trig.cos theta) x y
  let points := List.zipWith (fun a b => (a, b)) x_rot y_rot
  let segments := List.zipWith (fun p q => (p, q)) points points.tail
  (points, segments, colors)

/-- Written from the spec's words, for the rotation round-trip claim:
the un-rotated track midline, i.e. the point-wise average over drivers of
the (X, Y) telemetry linearly interpolated onto the metre grid. -/
def specAveragedTrackPoints (session : DomSession) (drivers : List String)
    (circuit_length : ℕ) : List (ℚ × ℚ) :=
  (linspace 0 circuit_length (circuit_length + 1)).map (fun g =>
    ((drivers.map (fun drv =>
        np_interp g ((session.telemetry drv).map (fun r => (r.Distance, r.X))))).sum
          / (drivers.length : ℚ),
     (drivers.map (fun drv =>
        np_interp g ((session.telemetry drv).map (fun r => (r.Distance, r.Y))))).sum
          / (drivers.length : ℚ)))

/-! Concrete fixtures used by the witness and counterexample theorems. -/

/-- A plain green-flag lap with a 90 s lap time and no pit transition. -/
def demoLap (n : ℚ) : Lap := ⟨n, 90, 1, "SOFT", n, "1", none, none⟩

/-- A lap run under a local yellow flag: FastF1 encodes yellow as status
code 2. -/
def yellowLap (n : ℚ) : Lap := ⟨n, 90, 1, "SOFT", n, "2", none, none⟩

/-- A lap run under a red flag: FastF1 encodes red as status code 5. -/
def redLap (n : ℚ) : Lap := ⟨n, 90, 1, "SOFT", n, "5", none, none⟩

/-- A lap entering the pits (PitInTime set). -/
def pitLap (n : ℚ) : Lap := ⟨n, 90, 1, "SOFT", n, "1", some 100, none⟩

/-- A lap whose 89.996 s raw time rounds upward once a tiny fuel
subtraction is applied. -/
def cheapLap : Lap := ⟨1, 89996/1000, 1, "SOFT", 1, "1", none, none⟩

/-- A ten-lap stint run entirely under yellow flags. -/
def yellowStint : List Lap :=
  [yellowLap 1, yellowLap 2, yellowLap 3, yellowLap 4, yellowLap 5,
   yellowLap 6, yellowLap 7, yellowLap 8, yellowLap 9, yellowLap 10]

/-- A nine-lap stint of ordinary laps. -/
def laps9 : List Lap :=
  [demoLap 1, demoLap 2, demoLap 3, demoLap 4, demoLap 5,
   demoLap 6, demoLap 7, demoLap 8, demoLap 9]

/-- A ten-lap stint whose last two laps are pit transitions. -/
def laps10 : List Lap :=
  [demoLap 1, demoLap 2, demoLap 3, demoLap 4, demoLap 5,
   demoLap 6, demoLap 7, demoLap 8, pitLap 9, pitLap 10]

/-- A session whose every driver ran the all-yellow ten-lap stint. -/
def wStintSession : StintSession := ⟨⟨57⟩, fun _ => yellowStint⟩

/-- A session with a single corner at 100 m and telemetry sampled only at
500 m, far outside every ±10 m corner window. -/
def wSpeedSession : SpeedSession := ⟨[100], fun _ => [⟨500, 0, 0, 42⟩]⟩

/-- A two-sample track session for the dominance fixtures. -/
def wDomSession : DomSession :=
  ⟨0, fun _ => [⟨0, 0, 0, 10⟩, ⟨2, 4, 6, 20⟩], fun _ => "#ffffff"⟩

/-- A concrete stand-in for the numpy trig kernels that satisfies the
exact identities deg2rad 0 = 0, cos 0 = 1 and sin 0 = 0 used by the
rotation theorems (small-angle approximations away from 0). -/
def wTrig : Trig := ⟨fun q => q * 1746/100000, fun q => 1 - q * q / 2, fun q => q⟩

/-- The table compare_car_speeds produces on the wSpeedSession fixture:
top speed 42 and a NaN Low category cell (the stored None coerced by the
DataFrame construction). -/
def wSpeedTable : List (String × PdCell × List (String × PdCell)) :=
  [("VER", PdCell.num 42, [("low".capitalize ++ "SpeedAvg", PdCell.nan)])]

/-! Helper lemmas. -/

theorem roundHalfEven_bounds (q : ℚ) : ⌊q⌋ ≤ roundHalfEven q ∧ roundHalfEven q ≤ ⌊q⌋ + 1 := by
  unfold roundHalfEven
  split_ifs <;> omega

theorem roundHalfEven_mono {x y : ℚ} (h : x ≤ y) : roundHalfEven x ≤ roundHalfEven y := by
  rcases lt_or_eq_of_le (Int.floor_le_floor h) with hf | hf
  · have hx := (roundHalfEven_bounds x).2
    have hy := (roundHalfEven_bounds y).1
    omega
  · have hab : Int.fract x ≤ Int.fract y := by
      unfold Int.fract
      rw [hf]
      linarith
    unfold roundHalfEven
    rw [hf]
    split_ifs <;> first | omega | linarith

theorem round2_mono {x y : ℚ} (h : x ≤ y) : round2 x ≤ round2 y := by
  unfold round2
  have h100 : x * 100 ≤ y * 100 := by linarith
  have := roundHalfEven_mono h100
  have hc : ((roundHalfEven (x * 100) : ℚ)) ≤ ((roundHalfEven (y * 100) : ℚ)) := by
    exact_mod_cast this
  linarith

/-- C4: fuel_correction returns, for every lap of the stint, the raw lap
time minus (N - lapNumber) * (initialFuelLoad / N) * correctionFactor
with N the session's total lap count, rounded to 2 decimal places.  The
hypothesis 0 < N scopes the statement to the inputs on which the Python
division iFuelLoad / laps is defined. -/
theorem fuel_correction_formula (session : RaceSession) (df : List Lap)
    (iFuelLoad FC_factor : ℚ) (_hN : 0 < session.total_laps) :
    fuel_correction session df iFuelLoad FC_factor =
      df.map (fun l => round2 (l.LapTime -
        ((session.total_laps : ℚ) - l.LapNumber) *
          (iFuelLoad / (session.total_laps : ℚ)) * FC_factor)) := rfl

theorem fuel_correction_formula_witness :
    0 < (57 : ℕ) ∧
    fuel_correction ⟨57⟩ [demoLap 30] 108 (35/1000) =
      [demoLap 30].map (fun l => round2 (l.LapTime -
        (((57 : ℕ) : ℚ) - l.LapNumber) * (108 / ((57 : ℕ) : ℚ)) * (35/1000))) :=
  ⟨by norm_num, fuel_correction_formula ⟨57⟩ [demoLap 30] 108 (35/1000) (by norm_num)⟩

/-- C8 counterexample: with session total 2 laps, fuel load 1/100 kg and
factor 0.035, the non-terminal lap (lap 1 of 2) with raw time 89.996 s is
corrected to 90.00 s, which is strictly greater than the raw time: the
2-decimal rounding can push the corrected time above the raw time when the
fuel subtraction is smaller than the rounding step. -/
theorem fuel_correction_not_le_raw :
    (0 : ℚ) < 1/100 ∧ (0 : ℚ) < 35/1000 ∧ (1 : ℚ) < ((2 : ℕ) : ℚ) ∧
    fuel_correction ⟨2⟩ [cheapLap] (1/100) (35/1000) = [90] ∧
    ¬ ((90 : ℚ) ≤ 89996/1000) := by
  refine ⟨by norm_num, by norm_num, by norm_num, ?_, by norm_num⟩
  simp only [fuel_correction, cheapLap, List.map_cons, List.map_nil]
  norm_num [round2, roundHalfEven, Int.fract]

/-- C8 (amended): fuel_correction preserves the stint length, and for
every non-terminal lap (lap number below the total lap count, with
positive fuel load and correction factor) the corrected lap time is at
most the raw lap time rounded to 2 decimal places; the pre-rounding
corrected value never exceeds the raw time, but the final rounding can
exceed a raw time that is not itself a multiple of 0.01. -/
theorem fuel_correction_length_and_bound (session : RaceSession) (df : List Lap)
    (iFuelLoad FC_factor : ℚ) (hN : 0 < session.total_laps)
    (hiF : 0 < iFuelLoad) (hFC : 0 < FC_factor) :
    (fuel_correction session df iFuelLoad FC_factor).length = df.length ∧
    ∀ (i : ℕ) (l : Lap) (c : ℚ), df[i]? = some l →
      (fuel_correction session df iFuelLoad FC_factor)[i]? = some c →
      l.LapNumber < (session.total_laps : ℚ) → c ≤ round2 l.LapTime := by
  constructor
  · unfold fuel_correction
    exact List.length_map df _
  · intro i l c hl hc hlt
    have hmap : (fuel_correction session df iFuelLoad FC_factor)[i]? =
        some (round2 (l.LapTime - ((session.total_laps : ℚ) - l.LapNumber) *
          (iFuelLoad / (session.total_laps : ℚ)) * FC_factor)) := by
      simp only [fuel_correction, List.getElem?_map, hl, Option.map_some']
    rw [hmap] at hc
    have hcval := Option.some.inj hc
    subst hcval
    apply round2_mono
    have hpos : 0 ≤ ((session.total_laps : ℚ) - l.LapNumber) *
        (iFuelLoad / (session.total_laps : ℚ)) * FC_factor := by
      have h1 : (0 : ℚ) < (session.total_laps : ℚ) - l.LapNumber := by linarith
      have h2 : (0 : ℚ) < iFuelLoad / (session.total_laps : ℚ) :=
        div_pos hiF (by exact_mod_cast hN)
      positivity
    linarith

theorem fuel_correction_length_and_bound_witness :
    0 < (10 : ℕ) ∧ (0 : ℚ) < 10 ∧ (0 : ℚ) < 1/10 ∧
    (fuel_correction ⟨10⟩ [demoLap 4] 10 (1/10)).length = 1 ∧
    (447 : ℚ)/5 ≤ round2 90 := by
  refine ⟨by norm_num, by norm_num, by norm_num, ?_, ?_⟩
  · exact (fuel_correction_length_and_bound ⟨10⟩ [demoLap 4] 10 (1/10)
      (by norm_num) (by norm_num) (by norm_num)).1
  · exact (fuel_correction_length_and_bound ⟨10⟩ [demoLap 4] 10 (1/10)
      (by norm_num) (by norm_num) (by norm_num)).2 0 (demoLap 4) (447/5)
      (by norm_num)
      (by simp only [fuel_correction, demoLap, List.map_cons, List.map_nil]
          norm_num [round2, roundHalfEven, Int.fract])
      (by norm_num [demoLap])

theorem getElem?_last {α : Type} (a : α) (l : List α) :
    (a :: l)[(a :: l).length - 1]? = some (l.getLastD a) := by
  induction l generalizing a with
  | nil => rfl
  | cons b t ih =>
      have hlen : (a :: b :: t).length - 1 = (b :: t).length - 1 + 1 := by
        simp
      rw [hlen, List.getElem?_cons_succ, List.getLastD_cons]
      exact ih b

/-- C5: get_acc_time locates the first telemetry row whose speed exceeds
the target and returns the time linearly interpolated between that row
and its predecessor from the two (time, speed) pairs, rounded to 2
decimals; on the two samples (t=0, s=80) and (t=1, s=100) with target 90
it returns exactly 0.5. -/
theorem get_acc_time_interp :
    (∀ (tel : List AccRow) (target : ℚ) (i : ℕ) (p1 p2 : AccRow),
      firstExceed target tel = some (i + 1) →
      tel[i]? = some p1 → tel[i + 1]? = some p2 →
      get_acc_time tel target =
        some (round2 (p1.Time + (p2.Time - p1.Time) * (target - p1.Speed)
          / (p2.Speed - p1.Speed)))) ∧
    get_acc_time [⟨0, 80⟩, ⟨1, 100⟩] 90 = some (1/2) := by
  constructor
  · intro tel target i p1 p2 hfe h1 h2
    unfold get_acc_time
    rw [hfe]
    have hcast : ((↑(i + 1) : ℤ) - 1) = (i : ℤ) := by push_cast; ring
    have hp : pyIloc tel ((↑(i + 1) : ℤ) - 1) = some p1 := by
      unfold pyIloc
      rw [hcast, if_pos (by exact_mod_cast Nat.zero_le i)]
      simpa using h1
    simp only [hp, h2]
  · norm_num [get_acc_time, firstExceed, pyIloc, round2, roundHalfEven, Int.fract]

theorem get_acc_time_interp_witness :
    firstExceed 90 [⟨0, 80⟩, ⟨1, 100⟩] = some (0 + 1) ∧
    ([⟨0, 80⟩, ⟨1, 100⟩] : List AccRow)[0]? = some ⟨0, 80⟩ ∧
    ([⟨0, 80⟩, ⟨1, 100⟩] : List AccRow)[0 + 1]? = some ⟨1, 100⟩ ∧
    get_acc_time [⟨0, 80⟩, ⟨1, 100⟩] 90 =
      some (round2 ((0 : ℚ) + ((1 : ℚ) - 0) * ((90 : ℚ) - 80) / ((100 : ℚ) - 80))) :=
  ⟨by norm_num [firstExceed], by norm_num, by norm_num,
   get_acc_time_interp.1 [⟨0, 80⟩, ⟨1, 100⟩] 90 0 ⟨0, 80⟩ ⟨1, 100⟩
     (by norm_num [firstExceed]) (by norm_num) (by norm_num)⟩

/-- C10: when the very first telemetry row already exceeds the target
speed, get_acc_time does not fail: the predecessor position 0 - 1 = -1
wraps to the last row, and the function returns the value interpolated
between the last sample (as predecessor) and the first sample, instead of
raising. -/
theorem get_acc_time_head_exceeds (p0 : AccRow) (rest : List AccRow) (target : ℚ)
    (h : target < p0.Speed) :
    get_acc_time (p0 :: rest) target =
      some (round2 ((rest.getLastD p0).Time +
        (p0.Time - (rest.getLastD p0).Time) * (target - (rest.getLastD p0).Speed)
          / (p0.Speed - (rest.getLastD p0).Speed))) := by
  have hfe : firstExceed target (p0 :: rest) = some 0 := by
    unfold firstExceed
    rw [if_pos h]
  unfold get_acc_time
  rw [hfe]
  have hp : pyIloc (p0 :: rest) ((↑(0 : ℕ) : ℤ) - 1) = some (rest.getLastD p0) := by
    unfold pyIloc
    rw [if_neg (by norm_num)]
    rw [if_pos (by simp)]
    have h1 : (-((↑(0 : ℕ) : ℤ) - 1)).toNat = 1 := by norm_num
    rw [h1]
    exact getElem?_last p0 rest
  simp only [hp, List.getElem?_cons_zero]

theorem get_acc_time_head_exceeds_witness :
    (100 : ℚ) < 120 ∧
    get_acc_time [⟨5, 120⟩, ⟨9, 60⟩] 100 =
      some (round2 ((9 : ℚ) + ((5 : ℚ) - 9) * ((100 : ℚ) - 60) / ((120 : ℚ) - 60))) :=
  ⟨by norm_num, get_acc_time_head_exceeds ⟨5, 120⟩ [⟨9, 60⟩] 100 (by norm_num)⟩

theorem firstExceed_eq_none {target : ℚ} {tel : List AccRow}
    (h : ∀ r ∈ tel, r.Speed ≤ target) : firstExceed target tel = none := by
  induction tel with
  | nil => rfl
  | cons r rest ih =>
      unfold firstExceed
      rw [if_neg (not_lt.mpr (h r (List.mem_cons_self r rest)))]
      rw [ih (fun x hx => h x (List.mem_cons_of_mem r hx))]
      rfl

/-- C6: a driver whose lap-1 telemetry never exceeds 100 km/h gets the
(NaN, NaN) placeholder — modelled (none, none) — in the 0-100 and 100-200
columns, and every other driver of the batch is still computed from its
own telemetry: the get_acc_df output decomposes around the failing driver
into the untouched outputs for the drivers before and after it. -/
theorem get_acc_df_partial_failure (abbrF : String → String)
    (carData : String → List AccRow) (pre : List String) (d : String)
    (post : List String) (h : ∀ r ∈ carData d, r.Speed ≤ 100) :
    get_acc_df ⟨pre ++ d :: post, abbrF, carData⟩ =
      get_acc_df ⟨pre, abbrF, carData⟩ ++
        (abbrF d, (none, none)) :: get_acc_df ⟨post, abbrF, carData⟩ := by
  unfold get_acc_df
  simp only [List.map_append, List.map_cons]
  have hentry : driverAccEntry (carData d) = (none, none) := by
    unfold driverAccEntry
    rw [show get_acc_time (carData d) 100 = none by
      unfold get_acc_time
      rw [firstExceed_eq_none h]]
  rw [hentry]

theorem get_acc_df_partial_failure_witness :
    ((⟨0, 50⟩ : AccRow).Speed ≤ 100) ∧
    get_acc_df ⟨["VER"] ++ "SLO" :: ["NOR"], fun s => s, fun _ => [⟨0, 50⟩]⟩ =
      get_acc_df ⟨["VER"], fun s => s, fun _ => [⟨0, 50⟩]⟩ ++
        ("SLO", (none, none)) ::
          get_acc_df ⟨["NOR"], fun s => s, fun _ => [⟨0, 50⟩]⟩ :=
  ⟨by norm_num,
   get_acc_df_partial_failure (fun s => s) (fun _ => [⟨0, 50⟩]) ["VER"] "SLO" ["NOR"]
     (by intro r hr; rw [List.mem_singleton] at hr; rw [hr]; norm_num)⟩

/-- C7: a stint of exactly 9 laps (after the quicklap and flag filters)
is rejected by the len < 10 threshold; one of exactly 10 laps passes the
threshold, and only then are the pit in/out laps dropped, so the sample
count handed to the OLS fit is the number of laps with null pit fields
(the stint must retain at least one such lap to be fitted at all). -/
theorem processStint_threshold (session : RaceSession) (iF FC : ℚ) (laps : List Lap) :
    (laps.length = 9 → processStint session iF FC laps = none) ∧
    (laps.length = 10 → laps.filter noPitLap ≠ [] →
      (processStint session iF FC laps).map (fun m => m.2.length) =
        some ((laps.filter noPitLap).length)) := by
  constructor
  · intro h9
    unfold processStint
    rw [if_pos (by rw [h9]; norm_num)]
  · intro h10 hne
    unfold processStint
    rw [if_neg (by rw [h10]; norm_num)]
    rcases hfil : laps.filter noPitLap with _ | ⟨f0, frest⟩
    · exact absurd hfil hne
    · simp [fuel_correction, List.length_zip]

theorem processStint_threshold_witness :
    (laps9.length = 9 ∧ processStint ⟨57⟩ 108 (35/1000) laps9 = none) ∧
    (laps10.length = 10 ∧ laps10.filter noPitLap ≠ [] ∧
      (processStint ⟨57⟩ 108 (35/1000) laps10).map (fun m => m.2.length) =
        some ((laps10.filter noPitLap).length)) :=
  ⟨⟨by norm_num [laps9], (processStint_threshold ⟨57⟩ 108 (35/1000) laps9).1
      (by norm_num [laps9])⟩,
   ⟨by norm_num [laps10],
    by simp [laps10, noPitLap, demoLap, pitLap],
    (processStint_threshold ⟨57⟩ 108 (35/1000) laps10).2
      (by norm_num [laps10])
      (by simp [laps10, noPitLap, demoLap, pitLap])⟩⟩

/-- C3 (code-bug evidence): the filter at utils.py:137 drops only laps
whose TrackStatus contains the character 4 — the FastF1 safety-car code.
A yellow-flag lap (status 2) and a red-flag lap (status 5) both survive
the filter, contradicting the inline comment "Drop laps under yellow/red
flags": a full ten-lap all-yellow stint flows through
get_driver_stint_models and contributes all 10 laps to the fitted
regression samples. -/
theorem yellow_red_laps_survive_flag_filter :
    dropFlaggedLaps [yellowLap 1, redLap 2] = [yellowLap 1, redLap 2] ∧
    ((get_driver_stint_models wStintSession ["VER"] 108 (35/1000)).map
      (fun r => (r.1, r.2.map (fun m => (m.1, m.2.length))))) =
      [("VER", [("SOFT", 10)])] := by
  have h2 : ("2".data.contains (Char.ofNat 52)) = false := by decide
  have h5 : ("5".data.contains (Char.ofNat 52)) = false := by decide
  constructor
  · simp [dropFlaggedLaps, yellowLap, redLap, h2, h5]
  · simp [get_driver_stint_models, wStintSession, dropFlaggedLaps, yellowStint,
      yellowLap, h2, groupByStint, stintKeys, sortKeys, insertSorted, dedupAdj,
      processStint, noPitLap, fuel_correction, List.length_zip]

theorem categorySamples_nil_of_no_window (tel : List TelRow) (corners : List ℚ)
    (delta : ℚ) : ∀ (cs : List ℕ) (samples : List ℚ),
    categorySamples tel corners delta cs = some samples →
    (∀ c ∈ cs, ∀ dist : ℚ, pyIloc corners ((c : ℤ) - 1) = some dist →
      ∀ r ∈ tel, ¬(dist - delta < r.Distance ∧ r.Distance < dist + delta)) →
    samples = [] := by
  intro cs
  induction cs with
  | nil =>
      intro samples h _
      unfold categorySamples at h
      exact (Option.some.inj h).symm
  | cons c rest ih =>
      intro samples h hwin
      unfold categorySamples at h
      cases hp : pyIloc corners ((c : ℤ) - 1) with
      | none =>
          simp only [hp] at h
          exact Option.noConfusion h
      | some dist =>
          simp only [hp] at h
          cases hr : categorySamples tel corners delta rest with
          | none =>
              simp only [hr] at h
              exact Option.noConfusion h
          | some others =>
              simp only [hr] at h
              have hothers : others = [] :=
                ih others hr (fun c2 hc2 => hwin c2 (List.mem_cons_of_mem c hc2))
              have hfil : tel.filter (fun r =>
                  decide (dist - delta < r.Distance) &&
                    decide (r.Distance < dist + delta)) = [] := by
                apply List.filter_eq_nil_iff.mpr
                intro r hr2
                have hc := hwin c (List.mem_cons_self c rest) dist hp r hr2
                simpa using hc
              rw [hfil, hothers] at h
              simp only [List.map_nil, List.nil_append] at h
              exact (Option.some.inj h).symm

theorem categoryMetrics_entry (tel : List TelRow) (corners : List ℚ) (delta : ℚ) :
    ∀ (preI : List (String × List ℕ)) (name : String) (cs : List ℕ)
      (postI : List (String × List ℕ)) (cats : List (String × Option ℚ)),
    categoryMetrics tel corners delta (preI ++ (name, cs) :: postI) = some cats →
    (∀ c ∈ cs, ∀ dist : ℚ, pyIloc corners ((c : ℤ) - 1) = some dist →
      ∀ r ∈ tel, ¬(dist - delta < r.Distance ∧ r.Distance < dist + delta)) →
    cats[preI.length]? = some (name.capitalize ++ "SpeedAvg", none) := by
  intro preI
  induction preI with
  | nil =>
      intro name cs postI cats h hwin
      rw [List.nil_append] at h
      unfold categoryMetrics at h
      cases hs : categorySamples tel corners delta cs with
      | none =>
          simp only [hs] at h
          exact Option.noConfusion h
      | some samples =>
          simp only [hs] at h
          cases hm : categoryMetrics tel corners delta postI with
          | none =>
              simp only [hm] at h
              exact Option.noConfusion h
          | some others =>
              simp only [hm] at h
              have hsamples : samples = [] :=
                categorySamples_nil_of_no_window tel corners delta cs samples hs hwin
              rw [← Option.some.inj h]
              simp [hsamples, categoryValue]
  | cons q preI2 ih =>
      intro name cs postI cats h hwin
      rw [List.cons_append] at h
      unfold categoryMetrics at h
      cases hs : categorySamples tel corners delta q.2 with
      | none =>
          simp only [hs] at h
          exact Option.noConfusion h
      | some samples =>
          simp only [hs] at h
          cases hm : categoryMetrics tel corners delta (preI2 ++ (name, cs) :: postI) with
          | none =>
              simp only [hm] at h
              exact Option.noConfusion h
          | some others =>
              simp only [hm] at h
              rw [← Option.some.inj h]
              simp only [List.length_cons, List.getElem?_cons_succ]
              exact ih name cs postI others hm hwin

theorem compareRows_entry (session : SpeedSession) (delta : ℚ)
    (preI : List (String × List ℕ)) (name : String) (cs : List ℕ)
    (postI : List (String × List ℕ)) :
    ∀ (pre : List String) (d : String) (post : List String)
      (table : List (String × PdCell × List (String × PdCell))),
    compareRows session (preI ++ (name, cs) :: postI) delta (pre ++ d :: post) = some table →
    (∀ c ∈ cs, ∀ dist : ℚ, pyIloc session.corners ((c : ℤ) - 1) = some dist →
      ∀ r ∈ session.telemetry d, ¬(dist - delta < r.Distance ∧ r.Distance < dist + delta)) →
    (table[pre.length]?).map (fun row => (row.1, row.2.2[preI.length]?)) =
      some (d, some (name.capitalize ++ "SpeedAvg", PdCell.nan)) := by
  intro pre
  induction pre with
  | nil =>
      intro d post table h hwin
      rw [List.nil_append] at h
      unfold compareRows at h
      cases hm : categoryMetrics (session.telemetry d) session.corners delta
          (preI ++ (name, cs) :: postI) with
      | none =>
          simp only [hm] at h
          exact Option.noConfusion h
      | some cats =>
          simp only [hm] at h
          cases hrest : compareRows session (preI ++ (name, cs) :: postI) delta post with
          | none =>
              simp only [hrest] at h
              exact Option.noConfusion h
          | some others =>
              simp only [hrest] at h
              rw [← Option.some.inj h]
              have hcat : cats[preI.length]? = some (name.capitalize ++ "SpeedAvg", none) :=
                categoryMetrics_entry (session.telemetry d) session.corners delta
                  preI name cs postI cats hm hwin
              simp [List.getElem?_map, hcat, toCell, roundCell]
  | cons p0 pre2 ih =>
      intro d post table h hwin
      rw [List.cons_append] at h
      unfold compareRows at h
      cases hm : categoryMetrics (session.telemetry p0) session.corners delta
          (preI ++ (name, cs) :: postI) with
      | none =>
          simp only [hm] at h
          exact Option.noConfusion h
      | some cats =>
          simp only [hm] at h
          cases hrest : compareRows session (preI ++ (name, cs) :: postI) delta
              (pre2 ++ d :: post) with
          | none =>
              simp only [hrest] at h
              exact Option.noConfusion h
          | some others =>
              simp only [hrest] at h
              rw [← Option.some.inj h]
              simp only [List.length_cons, List.getElem?_cons_succ]
              exact ih d post others hrest hwin

/-- C2 counterexample: on a concrete call (one driver, one category whose
single corner window at 100 ± 10 m contains no telemetry sample), the
category cell of the driver's row in the RETURNED table is PdCell.nan —
the NaN that round(pd.DataFrame(results).T) produces by coercing the
stored Python None into the float64 driver column — refuting the claim's
conjunct that the returned cell is "not NaN" (it is still not zero). -/
theorem compare_car_speeds_cell_is_nan :
    compare_car_speeds wSpeedSession ["VER"] [("low", [1])] 10 = some wSpeedTable ∧
    ((wSpeedTable[(0 : ℕ)]?).map (fun row => (row.1, row.2.2[(0 : ℕ)]?))) =
      some ("VER", some ("low".capitalize ++ "SpeedAvg", PdCell.nan)) ∧
    PdCell.nan ≠ PdCell.num 0 := by
  refine ⟨?_, by simp [wSpeedTable], by simp⟩
  have hs : categorySamples (wSpeedSession.telemetry "VER") wSpeedSession.corners 10 [1] =
      some [] := by
    simp only [categorySamples, wSpeedSession, pyIloc]
    norm_num
  have hm : categoryMetrics (wSpeedSession.telemetry "VER") wSpeedSession.corners 10
      [("low", [1])] = some [("low".capitalize ++ "SpeedAvg", none)] := by
    simp only [categoryMetrics, hs, categoryValue]
    norm_num
  simp only [compare_car_speeds, compareRows, hm]
  simp only [wSpeedSession, wSpeedTable, toCell, roundCell, List.map, List.max?,
    List.foldl]
  norm_num [round0, roundHalfEven, Int.fract]

/-- C2 (amended): in compare_car_speeds, for every driver of the batch
and every corner category, if the category's corner list is empty or no
telemetry sample of that driver falls inside the ±delta distance window
of any of the category's corners, the per-driver metrics dict stores an
explicit Python None for the category (categoryMetrics, utils.py:222) —
but the returned round(pd.DataFrame(results).T) coerces that None to NaN
in the float64 driver column, so the category cell of the driver's row in
the returned table is NaN (pandas' missing marker), never zero: the
positional row of the driver holds, at the positional index of the
category, the pair (capitalized name ++ "SpeedAvg", PdCell.nan). -/
theorem compare_car_speeds_null_category (session : SpeedSession) (delta : ℚ)
    (pre : List String) (d : String) (post : List String)
    (preI : List (String × List ℕ)) (name : String) (cs : List ℕ)
    (postI : List (String × List ℕ))
    (table : List (String × PdCell × List (String × PdCell)))
    (hsome : compare_car_speeds session (pre ++ d :: post)
      (preI ++ (name, cs) :: postI) delta = some table)
    (hwin : ∀ c ∈ cs, ∀ dist : ℚ, pyIloc session.corners ((c : ℤ) - 1) = some dist →
      ∀ r ∈ session.telemetry d, ¬(dist - delta < r.Distance ∧ r.Distance < dist + delta)) :
    (table[pre.length]?).map (fun row => (row.1, row.2.2[preI.length]?)) =
      some (d, some (name.capitalize ++ "SpeedAvg", PdCell.nan)) ∧
    ∀ cats, categoryMetrics (session.telemetry d) session.corners delta
        (preI ++ (name, cs) :: postI) = some cats →
      cats[preI.length]? = some (name.capitalize ++ "SpeedAvg", (none : Option ℚ)) :=
  ⟨compareRows_entry session delta preI name cs postI pre d post table hsome hwin,
   fun cats hm => categoryMetrics_entry (session.telemetry d) session.corners delta
     preI name cs postI cats hm hwin⟩

theorem compare_car_speeds_null_category_witness :
    compare_car_speeds wSpeedSession ["VER"] [("low", [1])] 10 = some wSpeedTable ∧
    (((wSpeedTable[(0 : ℕ)]?).map (fun row => (row.1, row.2.2[(0 : ℕ)]?))) =
        some ("VER", some ("low".capitalize ++ "SpeedAvg", PdCell.nan)) ∧
      ∀ cats, categoryMetrics (wSpeedSession.telemetry "VER") wSpeedSession.corners 10
          ([] ++ ("low", [1]) :: []) = some cats →
        cats[(0 : ℕ)]? = some ("low".capitalize ++ "SpeedAvg", (none : Option ℚ))) := by
  have hs : categorySamples (wSpeedSession.telemetry "VER") wSpeedSession.corners 10 [1] =
      some [] := by
    simp only [categorySamples, wSpeedSession, pyIloc]
    norm_num
  have hm : categoryMetrics (wSpeedSession.telemetry "VER") wSpeedSession.corners 10
      [("low", [1])] = some [("low".capitalize ++ "SpeedAvg", none)] := by
    simp only [categoryMetrics, hs, categoryValue]
    norm_num
  have hsome : compare_car_speeds wSpeedSession ["VER"] [("low", [1])] 10 =
      some wSpeedTable := by
    simp only [compare_car_speeds, compareRows, hm]
    simp only [wSpeedSession, wSpeedTable, toCell, roundCell, List.map, List.max?,
      List.foldl]
    norm_num [round0, roundHalfEven, Int.fract]
  refine ⟨hsome, ?_⟩
  exact compare_car_speeds_null_category wSpeedSession 10 [] "VER" [] [] "low" [1] []
    wSpeedTable hsome
    (by
      intro c hc dist hd r hr
      rw [List.mem_singleton] at hc
      subst hc
      simp only [wSpeedSession, pyIloc] at hd
      norm_num at hd
      simp only [wSpeedSession] at hr
      rw [List.mem_singleton] at hr
      subst hr
      rw [← hd]
      norm_num)

theorem linspace_length (a b : ℚ) (num : ℕ) : (linspace a b num).length = num := by
  unfold linspace
  split_ifs with h0 h1
  · simp [h0]
  · simp [h1]
  · rw [List.length_map, List.length_range]

theorem dominance_lengths (trig : Trig) (session : DomSession) (d0 : String)
    (ds : List String) (L w : ℕ) (rot : Option ℚ) (cm : Option (String → String)) :
    (compute_track_dominance_multi trig session (d0 :: ds) L w rot cm).1.length = L + 1 ∧
    (compute_track_dominance_multi trig session (d0 :: ds) L w rot cm).2.1.length = L ∧
    (compute_track_dominance_multi trig session (d0 :: ds) L w rot cm).2.2.length = L + 1 := by
  refine ⟨?_, ?_, ?_⟩ <;>
    simp [compute_track_dominance_multi, meanAxis0, linspace_length,
      List.length_zipWith]

/-- C1 counterexample: on a concrete call (one driver, integer circuit
length 2) the returned points array has 3 entries and the segments array
2, but the colors array has 3 entries — the same as points, not the same
as segments: the claim's third conjunct (colors length = segments length)
is false of the code, which builds one color per grid point and leaves
the truncation to the plotting caller (plotset.py slices colors[:-1]). -/
theorem dominance_colors_length_ne_segments :
    (compute_track_dominance_multi wTrig wDomSession ["VER"] 2 200 none none).1.length = 3 ∧
    (compute_track_dominance_multi wTrig wDomSession ["VER"] 2 200 none none).2.1.length = 2 ∧
    (compute_track_dominance_multi wTrig wDomSession ["VER"] 2 200 none none).2.2.length = 3 ∧
    ¬ ((compute_track_dominance_multi wTrig wDomSession ["VER"] 2 200 none none).2.2.length =
       (compute_track_dominance_multi wTrig wDomSession ["VER"] 2 200 none none).2.1.length) := by
  obtain ⟨h1, h2, h3⟩ := dominance_lengths wTrig wDomSession "VER" [] 2 200 none none
  exact ⟨h1, h2, h3, by rw [h2, h3]; omega⟩

/-- C1 (amended): for every call with at least one driver (numpy raises
on an empty driver list before returning), the points array has
circuitLength + 1 entries and the segments array one fewer than points;
the per-point colors array has the same length as the points array — one
MORE than the segments array, the plotting caller truncating it with
colors[:-1]. -/
theorem dominance_array_lengths (trig : Trig) (session : DomSession)
    (drivers : List String) (L w : ℕ) (rot : Option ℚ)
    (cm : Option (String → String)) (h : drivers ≠ []) :
    (compute_track_dominance_multi trig session drivers L w rot cm).1.length = L + 1 ∧
    (compute_track_dominance_multi trig session drivers L w rot cm).2.1.length =
      (compute_track_dominance_multi trig session drivers L w rot cm).1.length - 1 ∧
    (compute_track_dominance_multi trig session drivers L w rot cm).2.2.length =
      (compute_track_dominance_multi trig session drivers L w rot cm).1.length := by
  obtain ⟨d0, ds, rfl⟩ := List.exists_cons_of_ne_nil h
  obtain ⟨h1, h2, h3⟩ := dominance_lengths trig session d0 ds L w rot cm
  refine ⟨h1, ?_, ?_⟩
  · rw [h1, h2]
    omega
  · rw [h1, h3]


theorem dominance_array_lengths_witness :
    (["VER"] : List String) ≠ [] ∧
    (compute_track_dominance_multi wTrig wDomSession ["VER"] 2 200 none none).1.length = 2 + 1 ∧
    (compute_track_dominance_multi wTrig wDomSession ["VER"] 2 200 none none).2.1.length =
      (compute_track_dominance_multi wTrig wDomSession ["VER"] 2 200 none none).1.length - 1 ∧
    (compute_track_dominance_multi wTrig wDomSession ["VER"] 2 200 none none).2.2.length =
      (compute_track_dominance_multi wTrig wDomSession ["VER"] 2 200 none none).1.length := by
  refine ⟨by simp, ?_, ?_, ?_⟩
  · exact (dominance_array_lengths wTrig wDomSession ["VER"] 2 200 none none (by simp)).1
  · exact (dominance_array_lengths wTrig wDomSession ["VER"] 2 200 none none (by simp)).2.1
  · exact (dominance_array_lengths wTrig wDomSession ["VER"] 2 200 none none (by simp)).2.2

theorem zipWith_id_left (x y : List ℚ) (h : x.length = y.length) :
    List.zipWith (fun a b => a * 1 - b * 0) x y = x := by
  induction x generalizing y with
  | nil => simp
  | cons a xs ih =>
      cases y with
      | nil => simp at h
      | cons b ys =>
          simp only [List.zipWith_cons_cons]
          congr 1
          · ring
          · exact ih ys (by simpa using h)

theorem zipWith_id_right (x y : List ℚ) (h : x.length = y.length) :
    List.zipWith (fun a b => a * 0 + b * 1) x y = y := by
  induction x generalizing y with
  | nil => cases y with
      | nil => simp
      | cons b ys => simp at h
  | cons a xs ih =>
      cases y with
      | nil => simp at h
      | cons b ys =>
          simp only [List.zipWith_cons_cons]
          congr 1
          · ring
          · exact ih ys (by simpa using h)

theorem meanAxis0_maps {α : Type} (d0 : α) (ds : List α) (grid : List ℚ)
    (F : α → ℚ → ℚ) :
    meanAxis0 ((d0 :: ds).map (fun d => grid.map (F d))) =
      grid.map (fun g => (((d0 :: ds).map (fun d => F d g)).sum)
        / (((d0 :: ds).length : ℕ) : ℚ)) := by
  rw [List.map_cons]
  simp only [meanAxis0]
  apply List.ext_getElem
  · simp
  · intro i h1 h2
    simp only [List.length_map, List.length_range] at h1 h2
    have hg : ∀ d : α, (grid.map (F d)).getD i 0 = F d grid[i] := by
      intro d
      rw [List.getD_eq_getElem (grid.map (F d)) 0 (by simpa using h1)]
      simp
    simp only [List.getElem_map, List.getElem_range, List.map_cons, List.map_map,
      Function.comp_def, List.sum_cons, List.length_cons, List.length_map]
    rw [hg d0]
    have htail : List.map (fun d => (List.map (F d) grid).getD i 0) ds =
        List.map (fun d => F d grid[i]) ds :=
      List.map_congr_left (fun a _ => hg a)
    rw [htail]

/-- C9: with rotation 0 the rotation step is the identity — since the
float kernels satisfy deg2rad 0 = 0, cos 0 = 1 and sin 0 = 0 exactly —
so the points returned by compute_track_dominance_multi are exactly the
point-wise average over the drivers of their (X, Y) telemetry
interpolated onto the metre grid. -/
theorem dominance_rotation_zero (trig : Trig) (session : DomSession)
    (drivers : List String) (L w : ℕ) (cm : Option (String → String))
    (hd : drivers ≠ []) (h0 : trig.deg2rad 0 = 0) (hc : trig.cos 0 = 1)
    (hs : trig.sin 0 = 0) :
    (compute_track_dominance_multi trig session drivers L w (some 0) cm).1 =
      specAveragedTrackPoints session drivers L := by
  obtain ⟨d0, ds, rfl⟩ := List.exists_cons_of_ne_nil hd
  simp only [compute_track_dominance_multi, Option.getD_some]
  simp only [h0, hc, hs]
  simp only [meanAxis0_maps]
  rw [zipWith_id_left _ _ (by simp), zipWith_id_right _ _ (by simp)]
  unfold specAveragedTrackPoints
  apply List.ext_getElem
  · simp [List.length_zipWith]
  · intro i h1 h2
    simp [List.getElem_zipWith, List.getElem_map]

theorem dominance_rotation_zero_witness :
    (["VER"] : List String) ≠ [] ∧ wTrig.deg2rad 0 = 0 ∧ wTrig.cos 0 = 1 ∧
    wTrig.sin 0 = 0 ∧
    (compute_track_dominance_multi wTrig wDomSession ["VER"] 2 200 (some 0) none).1 =
      specAveragedTrackPoints wDomSession ["VER"] 2 := by
  refine ⟨by simp, by norm_num [wTrig], by norm_num [wTrig], by norm_num [wTrig], ?_⟩
  exact dominance_rotation_zero wTrig wDomSession ["VER"] 2 200 none (by simp)
    (by norm_num [wTrig]) (by norm_num [wTrig]) (by norm_num [wTrig])
